import Mathlib

/-!
A verification development for the tensorpipe channel/transport core: a shallow
embedding of the basic channel protocol engine, the CMA channel context worker,
the callback wrappers, the deferred-loop primitive and the SHM event loop,
together with theorems settling the specified properties.
-/

namespace Tensorpipe

/-- Error values of the tensorpipe core (tensorpipe/common/error.h,
tensorpipe/channel/error.h, tensorpipe/transport/error.h): a tagged value whose
zero value is `success`; the C++ `operator bool` corresponds to `isError`. -/
inductive Error where
  | success
  | channelClosed
  | connectionClosed
  | eofError
  | shortRead (expected : Nat) (got : Int)
  | shortWrite (expected : Nat) (got : Nat)
  | systemError (subsystem : String) (errnoValue : Nat)
  | protocolError
deriving DecidableEq, Repr

/-- The C++ `Error::operator bool()`: true when the value carries an actual
error, false for `success`. -/
def Error.isError : Error → Bool
  | .success => false
  | _ => true

/-! ## CMA channel context (tensorpipe/channel/cma/context.cc) -/

/-- Classification of one `process_vm_readv` return value performed by
`Context::Impl::handleCopyRequests_` (channel/cma/context.cc, lines 211-219):
`-1` becomes a system error in subsystem "cma" carrying `errno`; a return
value different from the requested length becomes a short-read error carrying
the requested length and the value; otherwise success. -/
def handleCopyResult (length errnoValue : Nat) (nread : Int) : Error :=
  if nread = -1 then Error.systemError "cma" errnoValue
  else if nread ≠ (length : Int) then Error.shortRead length nread
  else Error.success

/-- One entry of the CMA context's request queue, from
`Context::Impl::CopyRequest` (channel/cma/context.cc). The user callback is
identified by `reqId` in the fired-callback log. -/
structure CopyRequest where
  remotePid : Nat
  remoteAddr : Nat
  localAddr : Nat
  length : Nat
  reqId : Nat
deriving DecidableEq, Repr

/-- Worker body `Context::Impl::handleCopyRequests_` (channel/cma/context.cc,
lines 195-221): the worker pops queue entries in FIFO order; `none` models the
`nullopt` tombstone pushed by `close()`, at which the loop breaks; for each
popped request the kernel copy runs (its return value given by `nreadOf`, the
accompanying `errno` by `errnoOf`) and the request's callback fires with the
classified result. The result is the list of fired callbacks, in order. -/
def handleCopyRequests (nreadOf : CopyRequest → Int) (errnoOf : CopyRequest → Nat) :
    List (Option CopyRequest) → List (Nat × Error)
  | [] => []
  | none :: _ => []
  | some r :: rest =>
      (r.reqId, handleCopyResult r.length (errnoOf r) (nreadOf r)) ::
        handleCopyRequests nreadOf errnoOf rest

/-! ## Basic channel protocol engine (tensorpipe/channel/basic/channel.cc)

The channel's per-object deferred loop serialises all handlers, so the engine
is modelled as a sequential state machine: user calls and transport-callback
completions are events, processed one at a time. User callbacks are modelled by
append-only logs (descriptor callbacks, send completions, recv completions),
each entry recording the operation id and the `Error` passed to the callback.
-/

/-- State of one send operation (`Channel::Impl::SendOperation`): the id put in
the descriptor and the buffer length. The completion callback is identified by
`id` in the `sendCallbackLog`. -/
structure SendOperation where
  id : Nat
  length : Nat
deriving DecidableEq, Repr

/-- State of one recv operation (`Channel::Impl::RecvOperation`). -/
structure RecvOperation where
  id : Nat
  length : Nat
deriving DecidableEq, Repr

/-- Wire-level protocol packet (proto::Packet): a tagged union of a request or
a reply, each carrying an operation id. -/
inductive Packet where
  | request (id : Nat)
  | reply (id : Nat)
deriving DecidableEq, Repr

/-- Items written on the transport connection: protocol packets and payload
byte ranges. -/
inductive Wire where
  | packetRequest (id : Nat)
  | packetReply (id : Nat)
  | payloadBytes (id : Nat) (length : Nat)
deriving DecidableEq, Repr

/-- An in-flight operation on the transport connection, identified by the
wrapped callback the channel registered for it:
`readPacketOp` is the armed packet read of `readPacket_` (lazy wrapper, inner
callable `onPacket_`); `writePacketOp` is a request/reply packet write (lazy
wrapper, no-op inner callable); `writePayloadOp id` is the payload write of
`onRequest_` (eager wrapper, inner callable `sendCompleted id`);
`readPayloadOp id` is the payload read of `onReply_` (eager wrapper, inner
callable `recvCompleted id`). -/
inductive TransportOp where
  | readPacketOp
  | writePacketOp
  | writePayloadOp (id : Nat)
  | readPayloadOp (id : Nat)
deriving DecidableEq, Repr

/-- Whether the channel registered this operation's callback through the eager
wrapper (payload writes and reads) rather than the lazy one. -/
def TransportOp.isEager : TransportOp → Bool
  | .writePayloadOp _ => true
  | .readPayloadOp _ => true
  | _ => false

/-- State of `Channel::Impl` plus the observable interaction with the user and
the transport connection. `fatal` records that a `TP_THROW_ASSERT` fired
(protocol violation); once set, the channel processes nothing further. -/
structure ChannelState where
  error_ : Error
  id_ : Nat
  sendOperations_ : List SendOperation
  recvOperations_ : List RecvOperation
  pendingOps : List TransportOp
  connClosed : Bool
  wireWrites : List Wire
  descriptorLog : List (Error × Nat)
  sendCallbackLog : List (Nat × Error)
  recvCallbackLog : List (Nat × Error)
  fatal : Bool
deriving DecidableEq, Repr

/-- `Channel::Impl::sendCompleted` (channel.cc, lines 366-380): find the send
operation with the given id (assert it exists), remove it, and invoke its
callback with the current `error_`. -/
def sendCompleted (st : ChannelState) (id : Nat) : ChannelState :=
  match st.sendOperations_.find? (fun op => op.id == id) with
  | none => { st with fatal := true }
  | some _ =>
      { st with
        sendOperations_ := st.sendOperations_.eraseP (fun op => op.id == id),
        sendCallbackLog := st.sendCallbackLog ++ [(id, st.error_)] }

/-- `Channel::Impl::recvCompleted` (channel.cc, lines 382-396). -/
def recvCompleted (st : ChannelState) (id : Nat) : ChannelState :=
  match st.recvOperations_.find? (fun op => op.id == id) with
  | none => { st with fatal := true }
  | some _ =>
      { st with
        recvOperations_ := st.recvOperations_.eraseP (fun op => op.id == id),
        recvCallbackLog := st.recvCallbackLog ++ [(id, st.error_)] }

/-- Effect of one in-flight transport callback fired by `connection_->close()`
while `error_` is already non-Success (`handleError_` runs only right after
`error_` was set, and it clears `pendingOps` before firing these, so the nested
`processError_` of each wrapper sees the error state and performs no further
cleanup): a lazy-wrapped callback is suppressed; an eager-wrapped callback
still runs its inner callable. -/
def fireAborted (st : ChannelState) : TransportOp → ChannelState
  | .readPacketOp => st
  | .writePacketOp => st
  | .writePayloadOp id => sendCompleted st id
  | .readPayloadOp id => recvCompleted st id

/-- Fire the aborted in-flight callbacks in order. -/
def abortAll (st : ChannelState) : List TransportOp → ChannelState
  | [] => st
  | op :: rest => abortAll (fireAborted st op) rest

/-- `Channel::Impl::handleError_` (channel.cc, lines 398-403): close the
transport connection, which aborts all in-flight operations and fires their
callbacks (with a connection-closed error), and only those. -/
def handleError (st : ChannelState) : ChannelState :=
  abortAll { st with connClosed := true, pendingOps := [] } st.pendingOps

/-- `LazyCallbackWrapper::entryPointFromLoop_` together with its
`processError_` (common/callback.h, lines 156-189), for subject = the channel:
if the subject is already in the error state the inner callable is not invoked;
if the incoming error is non-Success, `error_` is set to it and `handleError_`
runs, and the inner callable is not invoked; otherwise the inner callable runs.
Returns the resulting state and whether the inner callable was invoked. -/
def lazyEntryFromLoop (st : ChannelState) (inner : ChannelState → ChannelState)
    (e : Error) : ChannelState × Bool :=
  if st.error_.isError then (st, false)
  else if e.isError then (handleError { st with error_ := e }, false)
  else (inner st, true)

/-- `EagerCallbackWrapper::entryPointFromLoop_` together with its
`processError_` (common/callback.h, lines 235-262): the first-error policy is
identical, but the inner callable is invoked regardless. The eager wrapper's
closure holds a `shared_ptr` to the subject, so (unlike the lazy wrapper,
see `lazyWrapperFire`) the subject is necessarily alive when it fires. -/
def eagerEntryFromLoop (st : ChannelState) (inner : ChannelState → ChannelState)
    (e : Error) : ChannelState × Bool :=
  if st.error_.isError then (inner st, true)
  else if e.isError then (inner (handleError { st with error_ := e }), true)
  else (inner st, true)

/-- `runIfAlive` applied to the lazy wrapper (common/callback.h, lines 36-48):
the lazy wrapper holds only a weak reference, so if the subject has been
destroyed (`alive = false`) the whole callback is a no-op. -/
def lazyWrapperFire (alive : Bool) (st : ChannelState)
    (inner : ChannelState → ChannelState) (e : Error) : ChannelState × Bool :=
  if alive then lazyEntryFromLoop st inner e else (st, false)

/-- `Channel::Impl::sendFromLoop_` (channel.cc, lines 202-216): allocate a
fresh id by post-incrementing `id_`, append a SendOperation carrying that id,
and synchronously invoke the descriptor callback with Success and a descriptor
containing exactly that id. No state check, no transport action. -/
def sendFromLoop (st : ChannelState) (length : Nat) : ChannelState :=
  { st with
    id_ := st.id_ + 1,
    sendOperations_ := st.sendOperations_ ++ [⟨st.id_, length⟩],
    descriptorLog := st.descriptorLog ++ [(Error.success, st.id_)] }

/-- `Channel::Impl::recvFromLoop_` (channel.cc, lines 241-261): parse the id
from the descriptor, append a RecvOperation with that id, and write a
`Request{id}` packet on the connection (lazy wrapper, no-op inner callable). -/
def recvFromLoop (st : ChannelState) (descId length : Nat) : ChannelState :=
  { st with
    recvOperations_ := st.recvOperations_ ++ [⟨descId, length⟩],
    wireWrites := st.wireWrites ++ [Wire.packetRequest descId],
    pendingOps := st.pendingOps ++ [TransportOp.writePacketOp] }

/-- `Channel::Impl::closeFromLoop_` (channel.cc, lines 285-291): if not already
in the error state, set `error_` to a channel-closed error and run
`handleError_`. -/
def closeFromLoop (st : ChannelState) : ChannelState :=
  if st.error_.isError then st
  else handleError { st with error_ := Error.channelClosed }

/-- `Channel::Impl::onRequest_` (channel.cc, lines 315-340): find the send
operation matching the request's id (assert it exists, else the channel is
fatally protocol-corrupt); write a `Reply{id}` packet (lazy wrapper) and then
the payload bytes (eager wrapper whose inner callable is `sendCompleted id`). -/
def onRequest (st : ChannelState) (id : Nat) : ChannelState :=
  match st.sendOperations_.find? (fun op => op.id == id) with
  | none => { st with fatal := true }
  | some op =>
      { st with
        wireWrites := st.wireWrites ++ [Wire.packetReply id, Wire.payloadBytes id op.length],
        pendingOps := st.pendingOps ++ [TransportOp.writePacketOp, TransportOp.writePayloadOp id] }

/-- `Channel::Impl::onReply_` (channel.cc, lines 342-364): find the recv
operation matching the reply's id (assert it exists, else fatal); read the
payload into its buffer (eager wrapper whose inner callable is
`recvCompleted id`). -/
def onReply (st : ChannelState) (id : Nat) : ChannelState :=
  match st.recvOperations_.find? (fun op => op.id == id) with
  | none => { st with fatal := true }
  | some _ =>
      { st with pendingOps := st.pendingOps ++ [TransportOp.readPayloadOp id] }

/-- `Channel::Impl::onPacket_` (channel.cc, lines 301-313): dispatch on the
packet tag, then re-arm the single outstanding packet read (`readPacket_`) —
unless the dispatch threw the protocol assertion. -/
def onPacket (st : ChannelState) (pkt : Packet) : ChannelState :=
  let st1 := match pkt with
    | .request id => onRequest st id
    | .reply id => onReply st id
  if st1.fatal then st1
  else { st1 with pendingOps := st1.pendingOps ++ [TransportOp.readPacketOp] }

/-- The inner callable the channel registered for each transport operation. -/
def innerOf (op : TransportOp) (pkt : Packet) (st : ChannelState) : ChannelState :=
  match op with
  | .readPacketOp => onPacket st pkt
  | .writePacketOp => st
  | .writePayloadOp id => sendCompleted st id
  | .readPayloadOp id => recvCompleted st id

/-- Completion of one in-flight transport operation with error `e` (and, for
the packet read, the arrived packet `pkt`), routed through the operation's
wrapper as the channel registered it. -/
def completeOp (st : ChannelState) (op : TransportOp) (e : Error) (pkt : Packet) :
    ChannelState :=
  if op.isEager then (eagerEntryFromLoop st (innerOf op pkt) e).1
  else (lazyEntryFromLoop st (innerOf op pkt) e).1

/-- Events processed by the channel's deferred loop: a user `send`, a user
`recv` (with the id parsed from the peer's descriptor), a user `close`, and the
completion of the `i`-th in-flight transport operation with error `e` (the
packet `pkt` is meaningful only for a completed packet read). -/
inductive ChanEvent where
  | userSend (length : Nat)
  | userRecv (descId : Nat) (length : Nat)
  | userClose
  | transportDone (i : Nat) (e : Error) (pkt : Packet)
deriving DecidableEq, Repr

/-- One step of the channel state machine. A completed transport operation is
consumed (removed from `pendingOps`) and its wrapped callback fired. After a
fatal protocol assertion nothing further is processed. -/
def step (st : ChannelState) (ev : ChanEvent) : ChannelState :=
  if st.fatal then st
  else match ev with
  | .userSend length => sendFromLoop st length
  | .userRecv descId length => recvFromLoop st descId length
  | .userClose => closeFromLoop st
  | .transportDone i e pkt =>
      match st.pendingOps[i]? with
      | none => st
      | some op => completeOp { st with pendingOps := st.pendingOps.eraseIdx i } op e pkt

/-- Run a sequence of events through the channel. -/
def runEvents (st : ChannelState) (evs : List ChanEvent) : ChannelState :=
  evs.foldl step st

/-- The freshly constructed channel state. -/
def initialChannelState : ChannelState :=
  { error_ := Error.success, id_ := 0, sendOperations_ := [], recvOperations_ := [],
    pendingOps := [], connClosed := false, wireWrites := [], descriptorLog := [],
    sendCallbackLog := [], recvCallbackLog := [], fatal := false }

/-- `Channel::Impl::initFromLoop_` (channel.cc, lines 267-271): activate the
closing receiver and arm the first packet read. -/
def initFromLoop (st : ChannelState) : ChannelState :=
  { st with pendingOps := st.pendingOps ++ [TransportOp.readPacketOp] }

/-! ## Deferred-loop primitive (`Channel::Impl::deferToLoop_`, channel.cc)

A callable submitted to the loop is modelled as a finite tree: executing it
submits its immediate `subs` reentrantly (each of which may submit more). The
drain loop of `deferToLoop_` pops the front of `pendingTasks_` and runs it;
reentrant submissions are appended at the back (`push_back`), and the loop
returns only once the queue is empty.
-/

/-- A callable submitted to the deferred loop: its identity (used in the
execution trace) and the callables it submits reentrantly while running. -/
inductive Task where
  | mk (taskId : Nat) (subs : List Task)

/-- Identity of a task. -/
def Task.taskId : Task → Nat
  | .mk i _ => i

/-- Reentrant submissions a task performs while running. -/
def Task.subs : Task → List Task
  | .mk _ s => s

/-- The drain loop of `Channel::Impl::deferToLoop_` (channel.cc, lines
163-175): pop the front task, run it (which appends its reentrant submissions
at the back of the queue), and repeat until the queue is empty. The result is
the execution trace (task identities in execution order). -/
def drain : List Task → List Nat
  | [] => []
  | Task.mk i subs :: q => i :: drain (q ++ subs)
termination_by q => sizeOf q
decreasing_by
  have h : ∀ (a b : List Task), sizeOf (a ++ b) + 1 = sizeOf a + sizeOf b := by
    intro a b
    induction a with
    | nil => simp; omega
    | cons t rest ih => simp only [List.cons_append, List.cons.sizeOf_spec]; omega
  have h2 := h q subs
  simp only [List.cons.sizeOf_spec, Task.mk.sizeOf_spec]
  omega

/-- State of one loop token (channel.cc, lines 50-52): the queue of pending
callables and the identity of the thread currently draining the queue
(`std::thread::id()`, the unset value, is `none`). -/
structure LoopState where
  pendingTasks : List Task
  currentLoop : Option Nat

/-- `Channel::Impl::inLoop_` (channel.cc, lines 149-151): whether the calling
thread (`tid`) is the one currently draining the queue. -/
def inLoop (st : LoopState) (tid : Nat) : Bool :=
  st.currentLoop == some tid

/-- `Channel::Impl::deferToLoop_` (channel.cc, lines 153-176), called by thread
`tid`: enqueue the callable; if another thread holds the loop, return at once
(that thread will run it); otherwise claim the loop for `tid` and drain the
queue to exhaustion before returning. Returns the trace of callables this call
executed, and the state after it returns. While the drain runs, the state is
`⟨queue, some tid⟩`, which is what `inLoop` consults. -/
def deferToLoop (st : LoopState) (tid : Nat) (fn : Task) : List Nat × LoopState :=
  if st.currentLoop.isSome then
    ([], { st with pendingTasks := st.pendingTasks ++ [fn] })
  else
    (drain (st.pendingTasks ++ [fn]), { pendingTasks := [], currentLoop := none })

/-! ## SHM event loop (tensorpipe/transport/shm/loop.cc) -/

/-- The `errno` value ENOENT, returned by `epoll_ctl(EPOLL_CTL_DEL)` for a
descriptor that is not in the epoll interest set. -/
def ENOENT : Nat := 2

/-- State of the SHM `Loop`: the kernel epoll interest set, the dense
`handlers_` table (`true` when the slot holds an initialized weak handler),
`handlerCount_`, and the number of wakeup eventfd writes performed. -/
structure ShmLoop where
  epollSet : List Nat
  handlers : List Bool
  handlerCount : Nat
  wakeupWrites : Nat
deriving DecidableEq, Repr

/-- `Loop::registerDescriptor` (transport/shm/loop.cc, lines 107-131): grow the
handler table if needed, count the handler if the slot was uninitialized,
record the handler, and `EPOLL_CTL_ADD` the fd (falling back to
`EPOLL_CTL_MOD` when it is already present). -/
def registerDescriptor (L : ShmLoop) (fd : Nat) : ShmLoop :=
  let grown := if L.handlers.length ≤ fd
    then L.handlers ++ List.replicate (fd + 1 - L.handlers.length) false
    else L.handlers
  let count := if grown.getD fd false then L.handlerCount else L.handlerCount + 1
  { L with
    handlers := grown.set fd true,
    handlerCount := count,
    epollSet := if fd ∈ L.epollSet then L.epollSet else L.epollSet ++ [fd] }

/-- The state change of a successful `Loop::unregisterDescriptor`
(transport/shm/loop.cc, lines 133-149): remove the fd from the epoll interest
set, decrement the handler count if the slot was initialized, reset the slot,
and write the wakeup eventfd when the count has dropped to 1. -/
def unregisterUpdate (L : ShmLoop) (fd : Nat) : ShmLoop :=
  { epollSet := L.epollSet.filter (fun x => x ≠ fd),
    handlers := L.handlers.set fd false,
    handlerCount := if L.handlers.getD fd false then L.handlerCount - 1 else L.handlerCount,
    wakeupWrites :=
      if (if L.handlers.getD fd false then L.handlerCount - 1 else L.handlerCount) = 1
      then L.wakeupWrites + 1 else L.wakeupWrites }

/-- The full `Loop::unregisterDescriptor` (transport/shm/loop.cc, lines
133-149): it first issues `epoll_ctl(EPOLL_CTL_DEL)`, which fails with ENOENT
when the fd is not in the interest set, upon which `TP_THROW_SYSTEM_IF` throws
(modelled as `Except.error errno`) before the handler table is touched; only on
success does the `unregisterUpdate` table change happen. -/
def unregisterDescriptor (L : ShmLoop) (fd : Nat) : Except Nat ShmLoop :=
  if fd ∈ L.epollSet then Except.ok (unregisterUpdate L fd) else Except.error ENOENT

/-- Guard of the event-loop thread's while loop, `Loop::loop`
(transport/shm/loop.cc, line 171): `while (!closed_ || handlerCount_ > 1)`.
The thread keeps blocking in `epoll_wait` and dispatching events while this is
true, and terminates when it is false. -/
def shmLoopContinues (closedFlag : Bool) (handlerCount : Nat) : Bool :=
  !closedFlag || decide (1 < handlerCount)

/-! ## Demonstration states used by concrete scenarios and witnesses -/

/-- Scenario of spec E3: a channel accepts one send (length 1024), then the
user closes the channel before the peer's `Request` packet arrives. -/
def closeBeforeRequestScenario : ChannelState :=
  runEvents (initFromLoop initialChannelState)
    [ChanEvent.userSend 1024, ChanEvent.userClose]

/-- A channel already in the (sticky) channel-closed error state. -/
def erroredChannelState : ChannelState :=
  { initialChannelState with error_ := Error.channelClosed }

/-- A fresh SHM loop: only the wakeup eventfd (fd 0) is registered. -/
def shmLoopDemo0 : ShmLoop :=
  { epollSet := [0], handlers := [true], handlerCount := 1, wakeupWrites := 0 }

/-- The demo loop after `registerDescriptor(5)`. -/
def shmLoopDemo1 : ShmLoop := registerDescriptor shmLoopDemo0 5

/-- The demo loop after `registerDescriptor(5)` and one successful
`unregisterDescriptor(5)`: fd 5 is out of the interest set, its handler slot is
reset, the count is back to 1 and the wakeup eventfd was written once. -/
def shmLoopDemo2 : ShmLoop :=
  { epollSet := [0], handlers := [true, false, false, false, false, false],
    handlerCount := 1, wakeupWrites := 1 }

/-! ## Theorems -/

/-- C2: for every CMA copy request of length `L`, the worker fires the user
callback with exactly one of: a system error in subsystem "cma" carrying
`errno` when `process_vm_readv` returned `-1`; a short read carrying
`expected = L` and `got = n` when the return value `n` satisfies `0 ≤ n < L`;
and success when `n = L`. -/
theorem cma_copy_result_classification (L errv : Nat) (n : Int) :
    (n = -1 → handleCopyResult L errv n = Error.systemError "cma" errv) ∧
    (0 ≤ n → n < (L : Int) → handleCopyResult L errv n = Error.shortRead L n) ∧
    (n = (L : Int) → handleCopyResult L errv n = Error.success) := by
  refine ⟨fun h => ?_, fun h0 hlt => ?_, fun h => ?_⟩
  · simp [handleCopyResult, h]
  · have h1 : n ≠ -1 := by omega
    have h2 : n ≠ (L : Int) := by omega
    simp [handleCopyResult, h1, h2]
  · have h1 : n ≠ -1 := by omega
    simp [handleCopyResult, h, h1]

/-- Witness for `cma_copy_result_classification`: the three branches evaluated
at the spec's literal scenarios (L = 4096; n = 3072, n = -1 with errno 1,
n = 4096). -/
theorem cma_copy_result_classification_witness :
    handleCopyResult 4096 1 3072 = Error.shortRead 4096 3072 ∧
    handleCopyResult 4096 1 (-1) = Error.systemError "cma" 1 ∧
    handleCopyResult 4096 1 4096 = Error.success :=
  ⟨(cma_copy_result_classification 4096 1 3072).2.1 (by decide) (by decide),
   (cma_copy_result_classification 4096 1 (-1)).1 (by decide),
   (cma_copy_result_classification 4096 1 4096).2.2 (by decide)⟩

/-- Helper: every callback fired by the worker belongs to a request in the
queue segment it processed. -/
theorem handleCopyRequests_reqId_mem (nreadOf : CopyRequest → Int)
    (errnoOf : CopyRequest → Nat) (pre : List CopyRequest) (i : Nat) (e : Error)
    (h : (i, e) ∈ handleCopyRequests nreadOf errnoOf (pre.map some)) :
    i ∈ pre.map CopyRequest.reqId := by
  induction pre with
  | nil => simp [handleCopyRequests] at h
  | cons q rest ih =>
      simp only [List.map_cons, handleCopyRequests, List.mem_cons] at h ⊢
      rcases h with h | h
      · exact Or.inl (congrArg Prod.fst h)
      · exact Or.inr (ih h)

/-- C10: a copy request enqueued after `close()` sits behind the `nullopt`
tombstone; the worker stops at the tombstone, so the late request is never
serviced and its callback is never invoked (neither with a result nor with an
error) — the fired-callback log is exactly that of the pre-close requests. -/
theorem cma_request_after_close_never_fires_callback
    (nreadOf : CopyRequest → Int) (errnoOf : CopyRequest → Nat)
    (pre : List CopyRequest) (r : CopyRequest) (post : List (Option CopyRequest)) :
    handleCopyRequests nreadOf errnoOf (pre.map some ++ none :: some r :: post)
      = handleCopyRequests nreadOf errnoOf (pre.map some) ∧
    ((∀ q ∈ pre, q.reqId ≠ r.reqId) →
      ∀ e : Error, (r.reqId, e) ∉
        handleCopyRequests nreadOf errnoOf (pre.map some ++ none :: some r :: post)) := by
  have hstop : handleCopyRequests nreadOf errnoOf (pre.map some ++ none :: some r :: post)
      = handleCopyRequests nreadOf errnoOf (pre.map some) := by
    induction pre with
    | nil => simp [handleCopyRequests]
    | cons q rest ih => simpa [handleCopyRequests] using ih
  refine ⟨hstop, fun hfresh e hmem => ?_⟩
  rw [hstop] at hmem
  have := handleCopyRequests_reqId_mem nreadOf errnoOf pre r.reqId e hmem
  rcases List.mem_map.mp this with ⟨q, hq, hid⟩
  exact hfresh q hq hid

/-- Witness for `cma_request_after_close_never_fires_callback`: one pre-close
request (id 1), the tombstone, then a late request (id 2); only the pre-close
callback fires. -/
theorem cma_request_after_close_never_fires_callback_witness :
    handleCopyRequests (fun _ => 16) (fun _ => 0)
      ([⟨10, 0, 0, 16, 1⟩].map some ++ none :: some ⟨10, 0, 0, 16, 2⟩ :: [])
      = handleCopyRequests (fun _ => 16) (fun _ => 0) ([⟨10, 0, 0, 16, 1⟩].map some) ∧
    ((2 : Nat), Error.success) ∉
      handleCopyRequests (fun _ => 16) (fun _ => 0)
        ([⟨10, 0, 0, 16, 1⟩].map some ++ none :: some ⟨10, 0, 0, 16, 2⟩ :: []) :=
  ⟨(cma_request_after_close_never_fires_callback (fun _ => 16) (fun _ => 0)
      [⟨10, 0, 0, 16, 1⟩] ⟨10, 0, 0, 16, 2⟩ []).1,
   (cma_request_after_close_never_fires_callback (fun _ => 16) (fun _ => 0)
      [⟨10, 0, 0, 16, 1⟩] ⟨10, 0, 0, 16, 2⟩ []).2 (by decide) Error.success⟩


/-- C4: every call to the basic channel's send — the state is never examined,
so in particular also when the channel is already in the error state —
allocates a fresh id by post-incrementing `id_`, appends a SendOperation with
that id to the outstanding-send list, synchronously fires the descriptor
callback with Success and a descriptor containing exactly that id, and performs
no write on the transport connection (no wire write, no new in-flight
operation, no error or connection change). -/
theorem basic_send_allocates_id_and_fires_descriptor_callback
    (st : ChannelState) (length : Nat) :
    (sendFromLoop st length).id_ = st.id_ + 1 ∧
    (sendFromLoop st length).sendOperations_ = st.sendOperations_ ++ [⟨st.id_, length⟩] ∧
    (sendFromLoop st length).descriptorLog = st.descriptorLog ++ [(Error.success, st.id_)] ∧
    (sendFromLoop st length).wireWrites = st.wireWrites ∧
    (sendFromLoop st length).pendingOps = st.pendingOps ∧
    (sendFromLoop st length).error_ = st.error_ ∧
    (sendFromLoop st length).connClosed = st.connClosed ∧
    (sendFromLoop st length).sendCallbackLog = st.sendCallbackLog :=
  ⟨rfl, rfl, rfl, rfl, rfl, rfl, rfl, rfl⟩

/-- C5: an inbound `Request{id}` with no matching outstanding SendOperation,
and an inbound `Reply{id}` with no matching outstanding RecvOperation, are
fatal protocol violations (the assertion aborts the channel); when a matching
operation exists that branch is not taken. -/
theorem basic_unknown_operation_id_is_fatal (st : ChannelState) (id : Nat) :
    ((∀ op ∈ st.sendOperations_, op.id ≠ id) → onRequest st id = { st with fatal := true }) ∧
    ((∃ op ∈ st.sendOperations_, op.id = id) → (onRequest st id).fatal = st.fatal) ∧
    ((∀ op ∈ st.recvOperations_, op.id ≠ id) → onReply st id = { st with fatal := true }) ∧
    ((∃ op ∈ st.recvOperations_, op.id = id) → (onReply st id).fatal = st.fatal) := by
  refine ⟨fun h => ?_, fun h => ?_, fun h => ?_, fun h => ?_⟩
  · have hnone : st.sendOperations_.find? (fun op => op.id == id) = none :=
      List.find?_eq_none.mpr (fun op hop => by simpa using h op hop)
    unfold onRequest
    rw [hnone]
  · obtain ⟨op, hop, hid⟩ := h
    have hsome : (st.sendOperations_.find? (fun op => op.id == id)).isSome :=
      List.find?_isSome.mpr ⟨op, hop, by simpa using hid⟩
    obtain ⟨op', hop'⟩ := Option.isSome_iff_exists.mp hsome
    unfold onRequest
    rw [hop']
  · have hnone : st.recvOperations_.find? (fun op => op.id == id) = none :=
      List.find?_eq_none.mpr (fun op hop => by simpa using h op hop)
    unfold onReply
    rw [hnone]
  · obtain ⟨op, hop, hid⟩ := h
    have hsome : (st.recvOperations_.find? (fun op => op.id == id)).isSome :=
      List.find?_isSome.mpr ⟨op, hop, by simpa using hid⟩
    obtain ⟨op', hop'⟩ := Option.isSome_iff_exists.mp hsome
    unfold onReply
    rw [hop']

/-- Witness for `basic_unknown_operation_id_is_fatal`: a channel holding only
send operation 0 aborts on `Request{7}` and does not abort on `Request{0}`. -/
theorem basic_unknown_operation_id_is_fatal_witness :
    onRequest { initialChannelState with sendOperations_ := [⟨0, 5⟩] } 7
      = { { initialChannelState with sendOperations_ := [⟨0, 5⟩] } with fatal := true } ∧
    (onRequest { initialChannelState with sendOperations_ := [⟨0, 5⟩] } 0).fatal
      = ({ initialChannelState with sendOperations_ := [⟨0, 5⟩] } : ChannelState).fatal :=
  ⟨(basic_unknown_operation_id_is_fatal
      { initialChannelState with sendOperations_ := [⟨0, 5⟩] } 7).1
      (by decide),
   (basic_unknown_operation_id_is_fatal
      { initialChannelState with sendOperations_ := [⟨0, 5⟩] } 0).2.1
      ⟨⟨0, 5⟩, by decide, rfl⟩⟩

/-! ### Sticky-error infrastructure -/

/-- Helper predicate: going from `st` to `st'` keeps the sticky error `E` and
adds only completion-log entries carrying `E`. -/
def StickyStep (E : Error) (st st' : ChannelState) : Prop :=
  st'.error_ = E ∧
  (∀ p ∈ st'.sendCallbackLog, p ∈ st.sendCallbackLog ∨ p.2 = E) ∧
  (∀ p ∈ st'.recvCallbackLog, p ∈ st.recvCallbackLog ∨ p.2 = E)

theorem StickyStep.rfl {E : Error} {st : ChannelState} (h : st.error_ = E) :
    StickyStep E st st :=
  ⟨h, fun _ hp => Or.inl hp, fun _ hp => Or.inl hp⟩

theorem StickyStep.trans {E : Error} {st st' st'' : ChannelState}
    (h1 : StickyStep E st st') (h2 : StickyStep E st' st'') :
    StickyStep E st st'' := by
  refine ⟨h2.1, fun p hp => ?_, fun p hp => ?_⟩
  · rcases h2.2.1 p hp with hp' | hp'
    · exact h1.2.1 p hp'
    · exact Or.inr hp'
  · rcases h2.2.2 p hp with hp' | hp'
    · exact h1.2.2 p hp'
    · exact Or.inr hp'

theorem sendCompleted_sticky {E : Error} {st : ChannelState} (id : Nat)
    (h : st.error_ = E) : StickyStep E st (sendCompleted st id) := by
  unfold sendCompleted
  split
  · exact StickyStep.rfl h
  · refine ⟨h, fun p hp => ?_, fun p hp => Or.inl hp⟩
    rcases List.mem_append.mp hp with hp' | hp'
    · exact Or.inl hp'
    · right
      rw [List.mem_singleton.mp hp', ← h]

theorem recvCompleted_sticky {E : Error} {st : ChannelState} (id : Nat)
    (h : st.error_ = E) : StickyStep E st (recvCompleted st id) := by
  unfold recvCompleted
  split
  · exact StickyStep.rfl h
  · refine ⟨h, fun p hp => Or.inl hp, fun p hp => ?_⟩
    rcases List.mem_append.mp hp with hp' | hp'
    · exact Or.inl hp'
    · right
      rw [List.mem_singleton.mp hp', ← h]

theorem fireAborted_sticky {E : Error} {st : ChannelState} (op : TransportOp)
    (h : st.error_ = E) : StickyStep E st (fireAborted st op) := by
  cases op with
  | readPacketOp => exact StickyStep.rfl h
  | writePacketOp => exact StickyStep.rfl h
  | writePayloadOp id => exact sendCompleted_sticky id h
  | readPayloadOp id => exact recvCompleted_sticky id h

theorem abortAll_sticky {E : Error} (ops : List TransportOp) :
    ∀ (st : ChannelState), st.error_ = E → StickyStep E st (abortAll st ops) := by
  induction ops with
  | nil => exact fun st h => StickyStep.rfl h
  | cons op rest ih =>
      intro st h
      have h1 := fireAborted_sticky op h
      exact h1.trans (ih (fireAborted st op) h1.1)

theorem handleError_sticky {E : Error} {st : ChannelState} (h : st.error_ = E) :
    StickyStep E st (handleError st) := by
  unfold handleError
  have h0 : StickyStep E st { st with connClosed := true, pendingOps := [] } :=
    StickyStep.rfl h
  exact h0.trans (abortAll_sticky st.pendingOps _ h0.1)

theorem innerOf_eager_sticky {E : Error} {st : ChannelState} {op : TransportOp}
    (pkt : Packet) (hop : op.isEager = true) (h : st.error_ = E) :
    StickyStep E st (innerOf op pkt st) := by
  cases op with
  | readPacketOp => simp [TransportOp.isEager] at hop
  | writePacketOp => simp [TransportOp.isEager] at hop
  | writePayloadOp id => exact sendCompleted_sticky id h
  | readPayloadOp id => exact recvCompleted_sticky id h

theorem completeOp_sticky {E : Error} {st : ChannelState} (op : TransportOp)
    (e : Error) (pkt : Packet) (hE : E.isError = true) (h : st.error_ = E) :
    StickyStep E st (completeOp st op e pkt) := by
  have hIsErr : st.error_.isError = true := by rw [h]; exact hE
  unfold completeOp
  by_cases hop : op.isEager = true
  · rw [if_pos hop]
    unfold eagerEntryFromLoop
    rw [if_pos hIsErr]
    exact innerOf_eager_sticky pkt hop h
  · rw [if_neg hop]
    unfold lazyEntryFromLoop
    rw [if_pos hIsErr]
    exact StickyStep.rfl h

theorem step_sticky {E : Error} {st : ChannelState} (ev : ChanEvent)
    (hE : E.isError = true) (h : st.error_ = E) :
    StickyStep E st (step st ev) := by
  unfold step
  split
  · exact StickyStep.rfl h
  split
  · exact ⟨h, fun p hp => Or.inl hp, fun p hp => Or.inl hp⟩
  · exact ⟨h, fun p hp => Or.inl hp, fun p hp => Or.inl hp⟩
  · unfold closeFromLoop
    rw [if_pos (by rw [h]; exact hE)]
    exact StickyStep.rfl h
  · rename_i i e pkt
    split
    · exact StickyStep.rfl h
    · rename_i op hidx
      have h0 : StickyStep E st { st with pendingOps := st.pendingOps.eraseIdx i } :=
        ⟨h, fun p hp => Or.inl hp, fun p hp => Or.inl hp⟩
      exact h0.trans (completeOp_sticky op e pkt hE h0.1)

theorem runEvents_sticky {E : Error} (evs : List ChanEvent)
    (hE : E.isError = true) :
    ∀ (st : ChannelState), st.error_ = E → StickyStep E st (runEvents st evs) := by
  induction evs with
  | nil => exact fun st h => StickyStep.rfl h
  | cons ev rest ih =>
      intro st h
      have h1 := step_sticky ev hE h
      exact h1.trans (ih (step st ev) h1.1)

/-- C3: the first non-Success error observed on a channel becomes the sticky
value of `error_` — a wrapped transport callback arriving with a non-Success
error while `error_` is still Success sets `error_` to exactly that error — and
once `error_` is non-Success, no later event (transport callback or close) ever
overwrites it, and every completion callback fired from then on (pending
operations drained by the connection close as well as later completions)
receives exactly that first error. -/
theorem channel_first_error_is_sticky :
    (∀ (st : ChannelState) (op : TransportOp) (e : Error) (pkt : Packet),
        st.error_ = Error.success → e.isError = true →
        (completeOp st op e pkt).error_ = e) ∧
    (∀ (E : Error), E.isError = true →
      ∀ (st : ChannelState) (evs : List ChanEvent), st.error_ = E →
        (runEvents st evs).error_ = E ∧
        (∀ p ∈ (runEvents st evs).sendCallbackLog, p ∈ st.sendCallbackLog ∨ p.2 = E) ∧
        (∀ p ∈ (runEvents st evs).recvCallbackLog, p ∈ st.recvCallbackLog ∨ p.2 = E)) := by
  constructor
  · intro st op e pkt hsucc he
    have hNotErr : st.error_.isError = false := by rw [hsucc]; rfl
    have hset : ({ st with error_ := e } : ChannelState).error_ = e := rfl
    unfold completeOp
    by_cases hop : op.isEager = true
    · rw [if_pos hop]
      unfold eagerEntryFromLoop
      rw [if_neg (by rw [hNotErr]; simp), if_pos he]
      exact ((handleError_sticky hset).trans
        (innerOf_eager_sticky pkt hop (handleError_sticky hset).1)).1
    · rw [if_neg hop]
      unfold lazyEntryFromLoop
      rw [if_neg (by rw [hNotErr]; simp), if_pos he]
      exact (handleError_sticky hset).1
  · intro E hE st evs h
    exact runEvents_sticky evs hE st h

/-- Witness for `channel_first_error_is_sticky`: a channel in the sticky
channel-closed state keeps that error across a transport callback reporting a
different (connection-closed) error, and across a user close. -/
theorem channel_first_error_is_sticky_witness :
    (runEvents erroredChannelState
        [ChanEvent.transportDone 0 Error.connectionClosed (Packet.request 0),
         ChanEvent.userClose]).error_ = Error.channelClosed :=
  ((channel_first_error_is_sticky.2 Error.channelClosed (by decide)
      erroredChannelState
      [ChanEvent.transportDone 0 Error.connectionClosed (Packet.request 0),
       ChanEvent.userClose] rfl).1)

/-! ### Close-before-request scenario (spec E3) -/

/-- Helper: completing a transport operation other than a payload write, on a
channel already in the error state, changes neither `error_`, nor
`pendingOps`, nor the send-completion log. -/
theorem completeOp_errored_no_send_completion {st : ChannelState}
    (op : TransportOp) (e : Error) (pkt : Packet)
    (hErr : st.error_.isError = true)
    (hop : ∀ id, op ≠ TransportOp.writePayloadOp id) :
    (completeOp st op e pkt).error_ = st.error_ ∧
    (completeOp st op e pkt).pendingOps = st.pendingOps ∧
    (completeOp st op e pkt).sendCallbackLog = st.sendCallbackLog := by
  cases op with
  | readPacketOp =>
      have h1 : completeOp st TransportOp.readPacketOp e pkt = st := by
        simp [completeOp, TransportOp.isEager, lazyEntryFromLoop, hErr]
      rw [h1]
      exact ⟨rfl, rfl, rfl⟩
  | writePacketOp =>
      have h1 : completeOp st TransportOp.writePacketOp e pkt = st := by
        simp [completeOp, TransportOp.isEager, lazyEntryFromLoop, hErr]
      rw [h1]
      exact ⟨rfl, rfl, rfl⟩
  | writePayloadOp id => exact absurd rfl (hop id)
  | readPayloadOp id =>
      have h1 : completeOp st (TransportOp.readPayloadOp id) e pkt = recvCompleted st id := by
        simp [completeOp, TransportOp.isEager, eagerEntryFromLoop, hErr, innerOf]
      rw [h1]
      unfold recvCompleted
      split
      · exact ⟨rfl, rfl, rfl⟩
      · exact ⟨rfl, rfl, rfl⟩

/-- Helper: one step on a channel in the error state with no payload write in
flight keeps the error state, creates no payload write, and fires no send
completion. -/
theorem step_no_send_completion {st : ChannelState} (ev : ChanEvent)
    (hErr : st.error_.isError = true)
    (hNP : ∀ id, TransportOp.writePayloadOp id ∉ st.pendingOps) :
    (step st ev).error_.isError = true ∧
    (∀ id, TransportOp.writePayloadOp id ∉ (step st ev).pendingOps) ∧
    (step st ev).sendCallbackLog = st.sendCallbackLog := by
  unfold step
  split
  · exact ⟨hErr, hNP, rfl⟩
  split
  · exact ⟨hErr, hNP, rfl⟩
  · refine ⟨hErr, fun id hmem => ?_, rfl⟩
    rcases List.mem_append.mp hmem with hm | hm
    · exact hNP id hm
    · simp at hm
  · unfold closeFromLoop
    rw [if_pos hErr]
    exact ⟨hErr, hNP, rfl⟩
  · rename_i i e pkt
    split
    · exact ⟨hErr, hNP, rfl⟩
    · rename_i op hidx
      have hopmem : op ∈ st.pendingOps := List.getElem?_mem hidx
      have hop : ∀ id, op ≠ TransportOp.writePayloadOp id := by
        intro id heq
        exact hNP id (heq ▸ hopmem)
      have hsub : ∀ id, TransportOp.writePayloadOp id ∉ st.pendingOps.eraseIdx i :=
        fun id hmem => hNP id (List.eraseIdx_subset _ i hmem)
      obtain ⟨h1, h2, h3⟩ := @completeOp_errored_no_send_completion
        { st with pendingOps := st.pendingOps.eraseIdx i } op e pkt hErr hop
      refine ⟨by rw [h1]; exact hErr, fun id hmem => ?_, h3⟩
      rw [h2] at hmem
      exact hsub id hmem

/-- Helper: on a channel in the error state with no payload write in flight,
no sequence of further events ever fires a send-completion callback. -/
theorem runEvents_no_send_completion (evs : List ChanEvent) :
    ∀ (st : ChannelState), st.error_.isError = true →
      (∀ id, TransportOp.writePayloadOp id ∉ st.pendingOps) →
      (runEvents st evs).sendCallbackLog = st.sendCallbackLog := by
  induction evs with
  | nil => intro st _ _; rfl
  | cons ev rest ih =>
      intro st hErr hNP
      obtain ⟨h1, h2, h3⟩ := step_no_send_completion ev hErr hNP
      calc (runEvents st (ev :: rest)).sendCallbackLog
          = (runEvents (step st ev) rest).sendCallbackLog := rfl
        _ = (step st ev).sendCallbackLog := ih (step st ev) h1 h2
        _ = st.sendCallbackLog := h3

/-- C1, settled against the code: in the E3 scenario — a send of length 1024
is accepted (descriptor callback fired with Success and id 0), then the channel
is closed before the peer's `Request{0}` arrives — the channel enters the
channel-closed error state and closes the connection, but the accepted send's
completion callback never fires: closing aborts only the armed packet read
(whose lazy wrapper suppresses the inner callable), the SendOperation stays in
the outstanding list, and no continuation of the run can ever fire its
callback. This contradicts the claimed "completion callback fires exactly once
with ChannelClosed". -/
theorem basic_close_before_request_drops_send_callback :
    closeBeforeRequestScenario.descriptorLog = [(Error.success, 0)] ∧
    closeBeforeRequestScenario.error_ = Error.channelClosed ∧
    closeBeforeRequestScenario.connClosed = true ∧
    closeBeforeRequestScenario.sendOperations_ = [⟨0, 1024⟩] ∧
    closeBeforeRequestScenario.pendingOps = [] ∧
    closeBeforeRequestScenario.sendCallbackLog = [] ∧
    ∀ evs : List ChanEvent,
      (runEvents closeBeforeRequestScenario evs).sendCallbackLog = [] := by
  refine ⟨rfl, rfl, rfl, rfl, rfl, rfl, fun evs => ?_⟩
  rw [runEvents_no_send_completion evs closeBeforeRequestScenario rfl ?_]
  · rfl
  · intro id hmem
    have hempty : closeBeforeRequestScenario.pendingOps = [] := rfl
    rw [hempty] at hmem
    exact absurd hmem (List.not_mem_nil _)

/-- C7: a lazy-wrapped transport callback firing on a subject already in the
error state, or delivering a non-Success error, does not invoke the inner
callable (and if the weakly-held subject is gone the whole callback is a
no-op); an eager-wrapped callback always invokes the inner callable, including
in the error state — the eager wrapper needs no aliveness guard because its
closure holds a strong reference to the subject. -/
theorem callback_wrapper_invocation_policy (st : ChannelState)
    (inner : ChannelState → ChannelState) (e : Error) :
    (st.error_.isError = true → lazyEntryFromLoop st inner e = (st, false)) ∧
    (e.isError = true → (lazyEntryFromLoop st inner e).2 = false) ∧
    (lazyWrapperFire false st inner e = (st, false)) ∧
    (eagerEntryFromLoop st inner e).2 = true := by
  refine ⟨fun h => ?_, fun h => ?_, ?_, ?_⟩
  · unfold lazyEntryFromLoop
    rw [if_pos h]
  · by_cases hs : st.error_.isError = true
    · simp [lazyEntryFromLoop, hs]
    · simp [lazyEntryFromLoop, hs, h]
  · rfl
  · by_cases h1 : st.error_.isError = true <;> by_cases h2 : e.isError = true <;>
      simp [eagerEntryFromLoop, h1, h2]

/-- Witness for `callback_wrapper_invocation_policy`: on a channel in the
error state the lazy wrapper suppresses the inner callable while the eager
wrapper still invokes it; a non-Success incoming error also suppresses the
lazy inner callable on a healthy channel. -/
theorem callback_wrapper_invocation_policy_witness :
    lazyEntryFromLoop erroredChannelState (fun s => s) Error.connectionClosed
      = (erroredChannelState, false) ∧
    (lazyEntryFromLoop initialChannelState (fun s => s) Error.connectionClosed).2 = false ∧
    (eagerEntryFromLoop erroredChannelState (fun s => s) Error.connectionClosed).2 = true :=
  ⟨(callback_wrapper_invocation_policy erroredChannelState (fun s => s)
      Error.connectionClosed).1 rfl,
   (callback_wrapper_invocation_policy initialChannelState (fun s => s)
      Error.connectionClosed).2.1 rfl,
   (callback_wrapper_invocation_policy erroredChannelState (fun s => s)
      Error.connectionClosed).2.2.2⟩

/-! ### Deferred-loop theorems -/

/-- Helper: `sizeOf` on task lists distributes over append. -/
theorem sizeOf_task_append (a b : List Task) :
    sizeOf (a ++ b) + 1 = sizeOf a + sizeOf b := by
  induction a with
  | nil => simp; omega
  | cons t rest ih =>
      simp only [List.cons_append, List.cons.sizeOf_spec]
      omega

/-- Unfolding equation for the empty queue. -/
theorem drain_nil : drain [] = [] := by
  rw [drain]

/-- Unfolding equation of the drain loop: the front task runs first and its
reentrant submissions are appended at the back of the remaining queue. -/
theorem drain_cons (i : Nat) (subs q : List Task) :
    drain (Task.mk i subs :: q) = i :: drain (q ++ subs) := by
  rw [drain]

/-- Helper (strong induction on total size): every task in the queue appears
in the drain trace. -/
theorem drain_mem_aux (n : Nat) :
    ∀ (q : List Task), sizeOf q ≤ n → ∀ t ∈ q, t.taskId ∈ drain q := by
  induction n with
  | zero =>
      intro q hq t ht
      cases q with
      | nil => simp at ht
      | cons a q' => simp [List.cons.sizeOf_spec] at hq
  | succ n ih =>
      intro q hq t ht
      cases q with
      | nil => simp at ht
      | cons a q' =>
          cases a with
          | mk i subs =>
              rw [drain_cons]
              rcases List.mem_cons.mp ht with rfl | hmem
              · exact List.mem_cons_self _ _
              · have hsz := sizeOf_task_append q' subs
                have hq' : sizeOf (q' ++ subs) ≤ n := by
                  simp only [List.cons.sizeOf_spec, Task.mk.sizeOf_spec] at hq
                  omega
                exact List.mem_cons_of_mem _
                  (ih (q' ++ subs) hq' t (List.mem_append_left _ hmem))

/-- Every task in the queue appears in the drain trace. -/
theorem drain_mem (q : List Task) (t : Task) (ht : t ∈ q) :
    t.taskId ∈ drain q :=
  drain_mem_aux (sizeOf q) q le_rfl t ht

/-- When no task submits reentrantly, the drain trace is exactly the queue in
submission order. -/
theorem drain_no_subs :
    ∀ q : List Task, (∀ t ∈ q, t.subs = []) → drain q = q.map Task.taskId := by
  intro q
  induction q with
  | nil => intro _; rw [drain_nil]; rfl
  | cons a q' ih =>
      intro h
      cases a with
      | mk i subs =>
          have hsubs : subs = [] := h (Task.mk i subs) (List.mem_cons_self _ _)
          rw [drain_cons, hsubs, List.append_nil,
            ih (fun t ht => h t (List.mem_cons_of_mem _ ht))]
          rfl

/-- C6: callables submitted to one loop token execute serially in submission
order (for a queue of non-reentrant callables the trace is exactly the queue
order); a reentrant submission made by a running callable is appended to the
queue, runs after the current callable (which heads the trace) and still
within the same drain — i.e. before `deferToLoop` returns; a `deferToLoop`
call finding the loop claimed only enqueues and returns at once, while a call
finding it idle drains the whole queue before returning; and `inLoop` returns
true exactly for the thread recorded as currently draining. -/
theorem deferred_loop_contract :
    (∀ q : List Task, (∀ t ∈ q, t.subs = []) → drain q = q.map Task.taskId) ∧
    (∀ (i : Nat) (subs q : List Task),
        drain (Task.mk i subs :: q) = i :: drain (q ++ subs) ∧
        ∀ t ∈ subs, t.taskId ∈ drain (q ++ subs)) ∧
    (∀ (st : LoopState) (tid : Nat) (fn : Task), st.currentLoop.isSome = true →
        deferToLoop st tid fn = ([], { st with pendingTasks := st.pendingTasks ++ [fn] })) ∧
    (∀ (q : List Task) (tid : Nat) (fn : Task),
        deferToLoop ⟨q, none⟩ tid fn = (drain (q ++ [fn]), ⟨[], none⟩)) ∧
    (∀ (q : List Task) (tid tid' : Nat), inLoop ⟨q, some tid⟩ tid' = true ↔ tid' = tid) ∧
    (∀ (q : List Task) (tid' : Nat), inLoop ⟨q, none⟩ tid' = false) := by
  refine ⟨drain_no_subs, fun i subs q => ⟨drain_cons i subs q, fun t ht =>
    drain_mem (q ++ subs) t (List.mem_append_right _ ht)⟩, fun st tid fn h => ?_,
    fun q tid fn => rfl, fun q tid tid' => ?_, fun q tid' => rfl⟩
  · unfold deferToLoop
    rw [if_pos h]
  · simp only [inLoop, beq_iff_eq, Option.some.injEq]
    exact eq_comm

/-- Witness for `deferred_loop_contract`: two non-reentrant callables drain in
submission order, and `inLoop` holds for the draining thread. -/
theorem deferred_loop_contract_witness :
    drain [Task.mk 0 [], Task.mk 1 []] = [0, 1] ∧
    inLoop ⟨[], some 3⟩ 3 = true := by
  constructor
  · have h := deferred_loop_contract.1 [Task.mk 0 [], Task.mk 1 []] ?_
    · rw [h]
      rfl
    · intro t ht
      rcases List.mem_cons.mp ht with rfl | ht'
      · rfl
      rcases List.mem_cons.mp ht' with rfl | ht''
      · rfl
      · simp at ht''
  · exact (deferred_loop_contract.2.2.2.2.1 [] 3 3).mpr rfl

/-! ### SHM loop theorems -/

/-- C8 counterexample: on a fresh loop with fd 5 registered, the first
`unregisterDescriptor(5)` succeeds (producing `shmLoopDemo2`), but the second
call does not behave like the first-call no-op the claim requires: the
`epoll_ctl(EPOLL_CTL_DEL)` fails and the call throws a system error (ENOENT)
instead — so calling it a second time is observably different from calling it
once. -/
theorem shm_unregister_not_idempotent_cex :
    unregisterDescriptor shmLoopDemo1 5 = Except.ok shmLoopDemo2 ∧
    unregisterDescriptor shmLoopDemo2 5 = Except.error ENOENT ∧
    unregisterDescriptor shmLoopDemo2 5 ≠ Except.ok shmLoopDemo2 := by
  refine ⟨rfl, rfl, fun h => Except.noConfusion h⟩

/-- C8 (amended): `unregisterDescriptor` is not idempotent — after a
successful `unregisterDescriptor(fd)`, a second call for the same fd finds the
fd gone from the epoll interest set, so its initial `epoll_ctl(EPOLL_CTL_DEL)`
fails with ENOENT and `TP_THROW_SYSTEM_IF` throws, before the handler table is
touched; the same-observable-effect property the claim asserts does not hold. -/
theorem shm_unregister_second_call_errors (L : ShmLoop) (fd : Nat) (L' : ShmLoop)
    (h : unregisterDescriptor L fd = Except.ok L') :
    unregisterDescriptor L' fd = Except.error ENOENT := by
  unfold unregisterDescriptor at h
  by_cases hmem : fd ∈ L.epollSet
  · rw [if_pos hmem] at h
    injection h with h
    subst h
    have hout : fd ∉ (unregisterUpdate L fd).epollSet := by
      simp [unregisterUpdate, List.mem_filter]
    unfold unregisterDescriptor
    rw [if_neg hout]
  · rw [if_neg hmem] at h
    exact absurd h (by simp)

/-- Witness for `shm_unregister_second_call_errors`: the concrete demo loop. -/
theorem shm_unregister_second_call_errors_witness :
    unregisterDescriptor shmLoopDemo2 5 = Except.error ENOENT :=
  shm_unregister_second_call_errors shmLoopDemo1 5 shmLoopDemo2 rfl

/-- C9: the SHM event-loop thread's while guard `!closed_ || handlerCount_ > 1`
makes the loop keep blocking and dispatching exactly while the loop is not
closed or more than the wakeup handler remains registered; given the invariant
that the wakeup eventfd handler is always registered while the loop runs
(`handlerCount ≥ 1`), the thread terminates if and only if the loop has been
closed and the handler count has dropped to exactly one. -/
theorem shm_loop_exit_condition (closedFlag : Bool) (count : Nat)
    (h : 1 ≤ count) :
    (shmLoopContinues closedFlag count = false ↔ (closedFlag = true ∧ count = 1)) ∧
    (shmLoopContinues closedFlag count = true ↔ (closedFlag = false ∨ 2 ≤ count)) := by
  cases closedFlag <;> simp [shmLoopContinues] <;> omega

/-- Witness for `shm_loop_exit_condition`: with the loop closed and only the
wakeup handler registered, the guard is false and the thread exits. -/
theorem shm_loop_exit_condition_witness :
    (shmLoopContinues true 1 = false ↔ (true = true ∧ (1 : Nat) = 1)) ∧
    (shmLoopContinues true 1 = true ↔ (true = false ∨ 2 ≤ (1 : Nat))) :=
  shm_loop_exit_condition true 1 (by decide)

end Tensorpipe
